import Mathlib

/-!
Shallow embedding of the Budtender Feedback System (FastAPI + SQLite).

Conventions of the embedding:
* SQLite timestamps are stored as ISO-8601 strings and compared
  lexicographically; ISO-8601 comparison on strings is order-isomorphic to
  comparison of the instants, so timestamps are modelled as `Int` and the
  string comparisons of the SQL queries become integer comparisons.
* Each SQLite table is a `List` of row structures; `UPDATE ... WHERE id = ?`
  is a `List.map` that rewrites matching rows in place, `DELETE ... WHERE p`
  is a `List.filter` keeping the rows p does not select, `SELECT COUNT(*)`
  is `List.countP`, and `fetchone` on a `SELECT` is `List.find?`.
* Python exceptions that produce HTTP error responses are modelled with
  `Except`; handlers are state-passing functions returning the outcome
  together with the database state after the call.
-/

namespace Budtender

/-- `app/config.py` line 49: `RATE_LIMIT_MAX = int(os.getenv("RATE_LIMIT_MAX", "10"))`,
modelled at its default value 10. -/
def RATE_LIMIT_MAX : Nat := 10

/-- `app/config.py` lines 59-63: the fixed tag allow-list. -/
def ALLOWED_TAGS : List String :=
  ["Salary", "Store", "Product", "Conflict", "Legal",
   "Management", "Schedule", "Safety", "Training", "Equipment",
   "Customer", "Policy", "Communication", "Hygiene", "Other"]

/-- `app/config.py` line 53: `MAX_FILE_SIZE` default `5 * 1024 * 1024`. -/
def MAX_FILE_SIZE : Nat := 5 * 1024 * 1024

/-- The 24-hour window (`timedelta(hours=24)`) in seconds, matching the
`Int` timestamp model. -/
def WINDOW_SECONDS : Int := 24 * 3600

/-- One row of the `rate_limits` table (`app/database.py` lines 90-93):
a hashed submitter identity and a timestamp. -/
structure RateEvent where
  ip_hash : String
  submitted_at : Int
  deriving DecidableEq, Repr

/-- `app/main.py` lines 179-185, `_check_rate_limit`: count the events of
this fingerprint strictly newer than `now - 24h` and accept iff the count
is strictly below `RATE_LIMIT_MAX`. -/
def rateLimitCount (events : List RateEvent) (ipHash : String) (now : Int) : Nat :=
  events.countP (fun e => e.ip_hash == ipHash && e.submitted_at > now - WINDOW_SECONDS)

/-- `app/main.py` line 185: `return count < RATE_LIMIT_MAX`. -/
def check_rate_limit (events : List RateEvent) (ipHash : String) (now : Int) : Bool :=
  rateLimitCount events ipHash now < RATE_LIMIT_MAX

/-- `app/background_tasks.py` lines 14-37, `cleanup_old_rate_limits`:
`DELETE FROM rate_limits WHERE submitted_at < cutoff` with
`cutoff = now - 24h`; the surviving rows are those not strictly older. -/
def cleanup_old_rate_limits (events : List RateEvent) (now : Int) : List RateEvent :=
  events.filter (fun e => !(e.submitted_at < now - WINDOW_SECONDS))

/-- Outcome of `jwt.decode` on the cookie token (`app/auth.py` line 42):
the decode either raises `ExpiredSignatureError`, raises a general
`JWTError` (malformed token, wrong signature, ...), or succeeds with a
payload whose `"sub"` claim may be absent. -/
inductive DecodeOutcome where
  | expired : DecodeOutcome
  | malformed : DecodeOutcome
  | ok (sub : Option String) : DecodeOutcome
  deriving DecidableEq, Repr

/-- One row of the `users` table (the fields `get_current_user` touches). -/
structure UserRec where
  id : String
  role : String
  is_active : Bool
  deriving DecidableEq, Repr

/-- The redirect raised by `get_current_user` on an authentication failure:
the `error=` reason code of the `Location` header, and whether the response
also carries a cookie-clearing `Set-Cookie` header. -/
structure AuthRedirect where
  reason : String
  clearsCookie : Bool
  deriving DecidableEq, Repr

/-- `app/auth.py` lines 29-84, `get_current_user`. The cookie is either
absent (`none`) or present with a given decode outcome; `lookup` is the
`SELECT * FROM users WHERE id = ? AND is_active = 1` query (`none` when the
user does not exist or is inactive). Each failure branch records the
reason code of its redirect and whether the branch's headers include a
cookie-clearing `Set-Cookie` (lines 36-39 and 45-48 set none; lines 51-57,
60-66 and 76-82 set one). -/
def get_current_user (token : Option DecodeOutcome)
    (lookup : String → Option UserRec) : Except AuthRedirect UserRec :=
  match token with
  | none => .error ⟨"no_token", false⟩
  | some .expired => .error ⟨"token_expired", true⟩
  | some .malformed => .error ⟨"invalid_token", true⟩
  | some (.ok none) => .error ⟨"invalid_token", false⟩
  | some (.ok (some sub)) =>
    match lookup sub with
    | none => .error ⟨"user_inactive", true⟩
    | some u => .ok u

/-- One row of the `feedback` table (`app/database.py` lines 69-88). -/
structure Row where
  id : Int
  submission_id : String
  category : String
  message : String
  photo_path : Option String
  status : String
  ip_hash : String
  user_agent : String
  ai_status : String
  translation_en : String
  translation_ru : String
  summary : String
  tags : String
  detected_language : String
  private_note : String
  is_deleted : Bool
  created_at : Int
  updated_at : Int
  deriving DecidableEq, Repr

/-- The fixed workflow-status enumeration checked by the status mutation
endpoints (`app/main.py` lines 455 and 488). -/
def WORKFLOW_STATUSES : List String :=
  ["new", "read", "in_progress", "resolved", "rejected"]

/-- Python `str` whitespace for `int(...)` stripping and `str.strip()`
(the common ASCII whitespace characters; other Unicode space code points
are not modelled, no claim depends on them). -/
def isPyWhitespace (c : Char) : Bool :=
  c == ' ' || c == '\t' || c == '\n' || c == '\r' || c == '\x0b' || c == '\x0c'

/-- Decimal digit run → value, `none` unless nonempty and all digits. -/
def parseDigits (cs : List Char) : Option Nat :=
  if cs ≠ [] && cs.all (·.isDigit) then
    some (cs.foldl (fun a c => a * 10 + (c.toNat - '0'.toNat)) 0)
  else none

/-- Python's built-in `int` applied to a `str`: strip surrounding
whitespace, then an optional sign followed by a nonempty digit run;
anything else raises `ValueError` (`none`). Underscore digit grouping and
non-ASCII decimal digits, which CPython also accepts, are not modelled. -/
def pyIntOfString (s : String) : Option Int :=
  let cs := ((s.data.dropWhile isPyWhitespace).reverse.dropWhile isPyWhitespace).reverse
  match cs with
  | '+' :: rest => (parseDigits rest).map (fun n => (n : Int))
  | '-' :: rest => (parseDigits rest).map (fun n => -(n : Int))
  | _ => (parseDigits cs).map (fun n => (n : Int))

/-- A JSON value that can appear in the `ids` array of the bulk-status
request body after `request.json()` decoding: a JSON integer becomes a
Python `int`, a string a `str`, a boolean a `bool`, and `jnull` stands for
the values on which `int(...)` raises `TypeError` (`null`, arrays,
objects). -/
inductive JVal where
  | jint (n : Int) : JVal
  | jstr (s : String) : JVal
  | jbool (b : Bool) : JVal
  | jnull : JVal
  deriving DecidableEq, Repr

/-- `int(id_val)` as run by `app/main.py` line 495: an `int` is returned
as-is; a `bool` is a subclass of `int` in Python, so `int(True) = 1` and
`int(False) = 0` without any exception; a `str` is parsed; `None`/lists/
dicts raise `TypeError`. `none` models the raised `ValueError`/`TypeError`
caught on line 496. -/
def pyInt : JVal → Option Int
  | .jint n => some n
  | .jbool b => some (if b then 1 else 0)
  | .jstr s => pyIntOfString s
  | .jnull => none

/-- `[int(id_val) for id_val in ids]` (`app/main.py` line 495): convert
every element, the first raised exception aborting the whole
comprehension. -/
def pyIntList : List JVal → Option (List Int)
  | [] => some []
  | v :: vs =>
    match pyInt v with
    | none => none
    | some n => (pyIntList vs).map (fun ns => n :: ns)

/-- Outcome of the bulk status endpoint: an `HTTPException` status code or
the `{"ok": true, "count": len(ids)}` success body. -/
inductive BulkOutcome where
  | httpError (code : Nat) : BulkOutcome
  | ok (count : Nat) : BulkOutcome
  deriving DecidableEq, Repr

/-- `app/main.py` lines 479-505, `bulk_status`: validate the target status
against the workflow enumeration, reject empty `ids`, convert every id
with `int(...)` (any failure rejects the whole batch with 400 before the
`UPDATE` runs), then apply one `UPDATE ... WHERE id IN (...)` setting the
status and `updated_at` on every matching row. Returns the outcome and the
`feedback` table after the call. -/
def bulk_status (rows : List Row) (ids : List JVal) (newStatus : String)
    (now : Int) : BulkOutcome × List Row :=
  if ¬ (newStatus ∈ WORKFLOW_STATUSES) then (.httpError 400, rows)
  else if ids = [] then (.httpError 400, rows)
  else
    match pyIntList ids with
    | none => (.httpError 400, rows)
    | some intIds =>
      (.ok ids.length,
       rows.map (fun r =>
         if r.id ∈ intIds then
           { r with status := newStatus, updated_at := now }
         else r))

/-! ### Enrichment worker (`app/ai_pipeline.py`) -/

/-- `not message.strip()` (`app/ai_pipeline.py` line 45): true iff the
message is empty or consists only of whitespace. -/
def pyStripIsEmpty (s : String) : Bool :=
  s.data.all isPyWhitespace

/-- Python `str.lower()`. Lean's `Char.toLower` lowercases ASCII letters;
the keyword table is ASCII/Thai, so this matches Python on every string a
claim exercises. -/
def pyLower (s : String) : String :=
  String.mk (s.data.map Char.toLower)

/-- Does the first character list start with the second? -/
def startsWithChars : List Char → List Char → Bool
  | _, [] => true
  | [], _ :: _ => false
  | c :: cs, n :: ns => c == n && startsWithChars cs ns

/-- Does the second character list contain the first as a contiguous run? -/
def hasSubChars (needle : List Char) : List Char → Bool
  | [] => needle.isEmpty
  | c :: cs => startsWithChars (c :: cs) needle || hasSubChars needle cs

/-- Python's `kw in msg_lower` substring test (`app/ai_pipeline.py`
line 224). -/
def pyContains (needle hay : String) : Bool :=
  hasSubChars needle.data hay.data

/-- `app/ai_pipeline.py` lines 204-219: the fixed keyword table of the
local fallback, in source order. -/
def keywords_map : List (String × List String) :=
  [("Salary", ["salary", "pay", "wage", "money", "bonus", "compensation", "เงินเดือน"]),
   ("Store", ["store", "shop", "location", "branch", "ร้าน"]),
   ("Product", ["product", "strain", "weed", "cannabis", "flower", "edible", "สินค้า"]),
   ("Conflict", ["conflict", "fight", "argue", "bully", "harass", "toxic", "ทะเลาะ"]),
   ("Legal", ["legal", "law", "license", "regulation", "กฎหมาย"]),
   ("Management", ["manager", "boss", "supervisor", "lead", "ผู้จัดการ"]),
   ("Schedule", ["schedule", "shift", "overtime", "hours", "time", "ตารางงาน"]),
   ("Safety", ["safety", "danger", "risk", "accident", "unsafe", "ความปลอดภัย"]),
   ("Training", ["training", "learn", "skill", "course", "การฝึกอบรม"]),
   ("Equipment", ["equipment", "tool", "broken", "fix", "repair", "อุปกรณ์"]),
   ("Customer", ["customer", "client", "complaint", "ลูกค้า"]),
   ("Policy", ["policy", "rule", "procedure", "นโยบาย"]),
   ("Communication", ["communication", "inform", "meeting", "การสื่อสาร"]),
   ("Hygiene", ["clean", "dirty", "hygiene", "sanit", "สะอาด"])]

/-- Does a table entry match the lowered message: some keyword of the entry
occurs as a substring (`app/ai_pipeline.py` lines 222-225)? -/
def entryMatches (msgLower : String) (e : String × List String) : Bool :=
  e.2.any (fun kw => pyContains kw msgLower)

/-- The tags of all matching table entries, in table order (used to state
the characterization of the tag loop). -/
def matchingTags (message : String) : List String :=
  (keywords_map.filter (entryMatches (pyLower message))).map Prod.fst

/-- The tag loop of `app/ai_pipeline.py` lines 222-228: walk the table in
order, append the tag of each matching entry, and break as soon as three
tags are collected. -/
def deriveTags_go (msgLower : String) :
    List (String × List String) → List String → List String
  | [], acc => acc
  | e :: rest, acc =>
    let acc' := if entryMatches msgLower e then acc ++ [e.1] else acc
    if 3 ≤ acc'.length then acc' else deriveTags_go msgLower rest acc'

/-- `app/ai_pipeline.py` lines 221-231: the fallback tag derivation,
defaulting to the catch-all `["Other"]` when no keyword matched. -/
def derive_tags (message : String) : List String :=
  let tags := deriveTags_go (pyLower message) keywords_map []
  if tags = [] then ["Other"] else tags

/-- Is some character of the message inside the inclusive code-point
range? (`re.search(r'[\uXXXX-\uYYYY]', message)`). -/
def hasCharInRange (message : String) (lo hi : Nat) : Bool :=
  message.data.any (fun c => lo ≤ c.toNat && c.toNat ≤ hi)

/-- `app/ai_pipeline.py` lines 236-250: script-based language detection in
fixed priority order Thai, Cyrillic, CJK, Arabic, defaulting to "en". -/
def detect_language (message : String) : String :=
  if hasCharInRange message 0x0E00 0x0E7F then "th"
  else if hasCharInRange message 0x0400 0x04FF then "ru"
  else if hasCharInRange message 0x4E00 0x9FFF then "zh"
  else if hasCharInRange message 0x0600 0x06FF then "ar"
  else "en"

/-- `app/ai_pipeline.py` line 200: truncate to 147 characters plus an
ellipsis when the message exceeds 150 characters. -/
def fallback_summary (message : String) : String :=
  if message.length > 150 then (message.take 147).append "..." else message

/-- The single `UPDATE feedback ... WHERE id = ?` of the worker: rewrite
every row whose id matches, leave all others untouched. -/
def updateRow (rows : List Row) (fid : Int) (f : Row → Row) : List Row :=
  rows.map (fun r => if r.id == fid then f r else r)

/-- `UPDATE feedback SET ai_status = ? WHERE id = ?`. -/
def setAiStatus (rows : List Row) (fid : Int) (s : String) : List Row :=
  updateRow rows fid (fun r => { r with ai_status := s })

/-- The field update written by `_process_fallback`
(`app/ai_pipeline.py` lines 255-272). -/
def fallbackApply (message : String) (r : Row) : Row :=
  let detected := detect_language message
  { r with
    ai_status := "done",
    detected_language := detected,
    translation_en :=
      if detected = "en" then message
      else "[Auto-translation unavailable] ".append message,
    translation_ru := "[Требуется перевод] ".append message,
    summary := fallback_summary message,
    tags := String.intercalate "," (derive_tags message) }

/-- `app/ai_pipeline.py` lines 193-273, `_process_fallback` as a database
transformer. -/
def process_fallback (rows : List Row) (fid : Int) (message : String) : List Row :=
  updateRow rows fid (fallbackApply message)

/-- The parsed structured result of a successful remote call
(`app/ai_pipeline.py` lines 111-120): the string fields with their JSON
`get` defaults applied, and `tags` present as a list only when the JSON
value was a list (`isinstance` check, line 116). -/
structure RemoteOk where
  detected_language : String
  translation_en : String
  translation_ru : String
  summary : String
  tags : Option (List String)
  deriving DecidableEq, Repr

/-- The field update written on a successful remote call
(`app/ai_pipeline.py` lines 114-139): tags filtered to the allow-list and
joined, summary truncated to 150 characters. -/
def openaiApply (res : RemoteOk) (r : Row) : Row :=
  { r with
    ai_status := "done",
    detected_language := res.detected_language,
    translation_en := res.translation_en,
    translation_ru := res.translation_ru,
    summary := res.summary.take 150,
    tags :=
      match res.tags with
      | some l => String.intercalate "," (l.filter (fun t => t ∈ ALLOWED_TAGS))
      | none => "" }

/-- `app/ai_pipeline.py` lines 179-190, `_fallback_on_error`: run the
fallback; if the fallback path raises (`fallbackRaises`), set
`ai_status = 'failed'` instead of its fields. -/
def fallback_on_error (rows : List Row) (fid : Int) (message : String)
    (fallbackRaises : Bool) : List Row :=
  if fallbackRaises then setAiStatus rows fid "failed"
  else process_fallback rows fid message

/-- The empty-message short-circuit update (`app/ai_pipeline.py`
lines 47-49). -/
def emptyDoneApply (r : Row) : Row :=
  { r with
    ai_status := "done",
    summary := "",
    translation_en := "",
    translation_ru := "",
    tags := "",
    detected_language := "unknown" }

/-- Result of one worker invocation: the `feedback` table afterwards, and
whether the remote call and the local heuristic path were entered. -/
structure WorkerResult where
  db : List Row
  remoteInvoked : Bool
  fallbackInvoked : Bool
  deriving DecidableEq, Repr

/-- `app/ai_pipeline.py` lines 27-69, `_process`, one worker invocation.
Inputs that stand for the run's environment: `apiKey` — is
`OPENAI_API_KEY` set; `remote` — outcome of the remote call (`.error` for
any of the caught exception classes, lines 143-176, every one of which
calls `_fallback_on_error`); `fallbackRaises` — does the local heuristic
path raise. A fallback that raises on the direct no-key path is caught by
the outer handler (lines 61-67), which also sets `ai_status = 'failed'`.
Database statements themselves are modelled as always succeeding. -/
def process (rows : List Row) (fid : Int) (apiKey : Bool)
    (remote : Except Unit RemoteOk) (fallbackRaises : Bool) : WorkerResult :=
  let rows1 := setAiStatus rows fid "processing"
  match rows1.find? (fun r => r.id == fid) with
  | none => ⟨rows1, false, false⟩
  | some row =>
    if pyStripIsEmpty row.message then
      ⟨updateRow rows1 fid emptyDoneApply, false, false⟩
    else if apiKey then
      match remote with
      | .ok res => ⟨updateRow rows1 fid (openaiApply res), true, false⟩
      | .error _ => ⟨fallback_on_error rows1 fid row.message fallbackRaises, true, true⟩
    else
      if fallbackRaises then ⟨setAiStatus rows1 fid "failed", false, true⟩
      else ⟨process_fallback rows1 fid row.message, false, true⟩

/-- The frame relation between a row before and after a worker write: a
row with a different id is untouched, and even on the target row the
workflow status, message, category, private note and soft-delete flag are
unchanged (as is the id). -/
def RowFrame (fid : Int) (r r' : Row) : Prop :=
  (r.id ≠ fid → r' = r) ∧ r'.id = r.id ∧ r'.status = r.status ∧
  r'.message = r.message ∧ r'.category = r.category ∧
  r'.private_note = r.private_note ∧ r'.is_deleted = r.is_deleted

/-- A field update that touches only enrichment output fields and the
enrichment status. -/
def PreservesFrame (f : Row → Row) : Prop :=
  ∀ r, (f r).id = r.id ∧ (f r).status = r.status ∧ (f r).message = r.message ∧
    (f r).category = r.category ∧ (f r).private_note = r.private_note ∧
    (f r).is_deleted = r.is_deleted

/-! ### Public submission handler and admin detail view (`app/main.py`) -/

/-- Python `str.strip()` over the modelled whitespace characters. -/
def pyStrip (s : String) : String :=
  String.mk (((s.data.dropWhile isPyWhitespace).reverse.dropWhile isPyWhitespace).reverse)

/-- One character of `html.escape` (quote=True): `&`, `<`, `>`, `"` and
the apostrophe (code point 39) become entities. -/
def htmlEscapeChar (c : Char) : List Char :=
  if c = '&' then "&amp;".data
  else if c = '<' then "&lt;".data
  else if c = '>' then "&gt;".data
  else if c = '"' then "&quot;".data
  else if c.toNat = 39 then "&#x27;".data
  else [c]

/-- `html.escape(message)` (`app/main.py` line 231). -/
def pyHtmlEscape (s : String) : String :=
  String.mk (s.data.map htmlEscapeChar).flatten

/-- An uploaded file: its client-supplied name and its bytes. -/
structure Photo where
  filename : String
  content : List Nat
  deriving DecidableEq, Repr

/-- `photo.filename.rsplit(".", 1)[-1].lower() if "." in photo.filename
else ""` (`app/main.py` line 246). -/
def fileExt (filename : String) : String :=
  if filename.data.contains '.' then
    pyLower (String.mk ((filename.data.reverse.takeWhile (fun c => c ≠ '.')).reverse))
  else ""

/-- `app/main.py` lines 158-176, `_validate_image_signature`: JPEG or PNG
magic bytes, with a minimum length of 12. -/
def validate_image_signature (content : List Nat) : Bool :=
  if content.length < 12 then false
  else if content.take 3 = [0xff, 0xd8, 0xff] then true
  else if content.take 8 = [0x89, 0x50, 0x4e, 0x47, 0x0d, 0x0a, 0x1a, 0x0a] then true
  else false

/-- The photo-validation block of `submit_feedback` (`app/main.py`
lines 234-277): skip when no file (or empty filename) was sent; otherwise
reject empty content, oversized content, a bad extension, or bad magic
bytes. The MIME check is modelled by its file-signature fallback branch
(the `ImportError` path, lines 261-268). On success the stored path is the
server-generated `genFilename` (timestamp + random, line 271). -/
def photoCheck (photo : Option Photo) (genFilename : String) :
    Except Nat (Option String) :=
  match photo with
  | none => .ok none
  | some p =>
    if p.filename = "" then .ok none
    else if p.content.length = 0 then .error 400
    else if p.content.length > MAX_FILE_SIZE then .error 400
    else if ¬ (fileExt p.filename ∈ ["jpg", "jpeg", "png"]) then .error 400
    else if ¬ validate_image_signature p.content then .error 400
    else .ok (some genFilename)

/-- The parsed form of a public submission. `ip_hash` is the submitter
fingerprint (`_hash_ip` of the client address; the hash itself is not
modelled, only its output is used). -/
structure SubmitRequest where
  category : String
  message : String
  anonymity_consent : String
  photo : Option Photo
  ip_hash : String
  user_agent : String
  deriving DecidableEq, Repr

/-- The two tables `submit_feedback` touches. -/
structure StoreState where
  feedback : List Row
  rate_limits : List RateEvent
  deriving DecidableEq, Repr

/-- Outcome of the public submission handler: an `HTTPException`, the
distinct rate-limited page, or the thank-you page with the submission
code. -/
inductive SubmitOutcome where
  | httpError (code : Nat) : SubmitOutcome
  | rateLimited : SubmitOutcome
  | thankYou (submission_id : String) : SubmitOutcome
  deriving DecidableEq, Repr

/-- `app/main.py` lines 195-301, `submit_feedback`: consent check, rate
limit, category and message validation, photo validation, then one commit
inserting the feedback row and the rate-limit event together. `sid` is the
(collision-free) generated submission code and `fid` the row id assigned
by the insert; both are inputs of the model. Every rejection happens
before any insert, so those branches return the store unchanged. -/
def submit_feedback (st : StoreState) (req : SubmitRequest) (now : Int)
    (sid : String) (fid : Int) (genFilename : String) :
    SubmitOutcome × StoreState :=
  if req.anonymity_consent = "" then (.httpError 400, st)
  else if ¬ check_rate_limit st.rate_limits req.ip_hash now then (.rateLimited, st)
  else if ¬ (req.category ∈ ["complaint", "idea", "recommendation", "other"]) then
    (.httpError 400, st)
  else if pyStrip req.message = "" then (.httpError 400, st)
  else if req.message.length > 1000 then (.httpError 400, st)
  else
    match photoCheck req.photo genFilename with
    | .error code => (.httpError code, st)
    | .ok photo_path =>
      let row : Row :=
        { id := fid, submission_id := sid, category := req.category,
          message := pyHtmlEscape (pyStrip req.message),
          photo_path := photo_path, status := "new", ip_hash := req.ip_hash,
          user_agent := String.mk (req.user_agent.data.take 500),
          ai_status := "pending", translation_en := "", translation_ru := "",
          summary := "", tags := "", detected_language := "",
          private_note := "", is_deleted := false,
          created_at := now, updated_at := now }
      (.thankYou sid,
       { feedback := st.feedback ++ [row],
         rate_limits := st.rate_limits ++ [⟨req.ip_hash, now⟩] })

/-- Outcome of the admin detail view: 404 or the rendered row. -/
inductive DetailOutcome where
  | notFound : DetailOutcome
  | page (feedback : Row) : DetailOutcome
  deriving DecidableEq, Repr

/-- `app/main.py` lines 418-441, `feedback_detail`: look up the
non-deleted row; 404 when absent; when its workflow status is `new`,
update it to `read` with a fresh `updated_at` (an `UPDATE ... WHERE id = ?`
with no deletion filter) and render the row with the new status; any other
status renders the row with no write at all. -/
def feedback_detail (rows : List Row) (fid : Int) (now : Int) :
    DetailOutcome × List Row :=
  match rows.find? (fun r => r.id == fid && !r.is_deleted) with
  | none => (.notFound, rows)
  | some row =>
    if row.status = "new" then
      (.page { row with status := "read" },
       updateRow rows fid (fun r => { r with status := "read", updated_at := now }))
    else (.page row, rows)

/-- A concrete `feedback` row used to instantiate concrete-input
theorems. -/
def sampleRow : Row :=
  { id := 1, submission_id := "WDN-123-45", category := "idea",
    message := "hello", photo_path := none, status := "new",
    ip_hash := "h", user_agent := "ua", ai_status := "pending",
    translation_en := "", translation_ru := "", summary := "", tags := "",
    detected_language := "", private_note := "", is_deleted := false,
    created_at := 0, updated_at := 0 }

end Budtender

namespace Budtender

/-- C1. For a fingerprint with exactly N in-window events the check accepts
iff N < RATE_LIMIT_MAX; with N = RATE_LIMIT_MAX (the ceiling already
reached, so the (ceiling+1)-th submission) it rejects; and a submission
whose fingerprint has reached the ceiling gets the distinct rate-limited
outcome from the handler (given the consent check before it passes). -/
theorem check_rate_limit_accepts_iff_below_ceiling
    (events : List RateEvent) (ipHash : String) (now : Int) (N : Nat)
    (hN : rateLimitCount events ipHash now = N) :
    (check_rate_limit events ipHash now = true ↔ N < RATE_LIMIT_MAX) ∧
    (N = RATE_LIMIT_MAX → check_rate_limit events ipHash now = false) ∧
    (∀ (fb : List Row) (req : SubmitRequest) (sid : String) (fid : Int)
        (fn : String),
      req.ip_hash = ipHash → req.anonymity_consent ≠ "" → RATE_LIMIT_MAX ≤ N →
      (submit_feedback ⟨fb, events⟩ req now sid fid fn).1 = .rateLimited) := by
  refine ⟨by simp [check_rate_limit, hN], ?_, ?_⟩
  · intro hEq
    simp [check_rate_limit, hN, hEq]
  · intro fb req sid fid fn hip hcons hceil
    have hfalse : check_rate_limit events req.ip_hash now = false := by
      rw [hip]
      simp only [check_rate_limit, hN]
      simp
      omega
    simp [submit_feedback, hcons, hfalse]

theorem check_rate_limit_accepts_iff_below_ceiling_witness :
    rateLimitCount (List.replicate 10 ⟨"fp", 5⟩) "fp" 6 = 10 ∧
    (submit_feedback ⟨[], List.replicate 10 ⟨"fp", 5⟩⟩
        ⟨"idea", "hello", "on", none, "fp", "ua"⟩ 6 "WDN-1" 1 "f").1 =
      SubmitOutcome.rateLimited :=
  ⟨by decide,
   (check_rate_limit_accepts_iff_below_ceiling (List.replicate 10 ⟨"fp", 5⟩)
       "fp" 6 10 (by decide)).2.2
     [] ⟨"idea", "hello", "on", none, "fp", "ua"⟩ "WDN-1" 1 "f" rfl
     (by decide) (by decide)⟩

/-- C2. Running the eviction sweep at time `sweepNow` never changes the
in-window count computed by a rate-limit check at any time `checkNow` at or
after the sweep: deleted events are strictly older than the sweep's cutoff,
hence at most as old as the check's cutoff, hence never counted. -/
theorem cleanup_preserves_rate_limit_count
    (events : List RateEvent) (ipHash : String) (sweepNow checkNow : Int)
    (h : sweepNow ≤ checkNow) :
    rateLimitCount (cleanup_old_rate_limits events sweepNow) ipHash checkNow =
      rateLimitCount events ipHash checkNow := by
  unfold rateLimitCount cleanup_old_rate_limits
  rw [List.countP_filter]
  apply List.countP_congr
  intro e _
  constructor
  · intro he
    exact (Bool.and_elim_left he)
  · intro he
    have h1 : e.ip_hash == ipHash := Bool.and_elim_left he
    have h2 : decide (e.submitted_at > checkNow - WINDOW_SECONDS) :=
      Bool.and_elim_right he
    have h2' : e.submitted_at > checkNow - WINDOW_SECONDS := of_decide_eq_true h2
    have h3 : ¬ (e.submitted_at < sweepNow - WINDOW_SECONDS) := by omega
    simp [h1, h2', h3]

theorem cleanup_preserves_rate_limit_count_witness :
    (5 : Int) ≤ 7 ∧
    rateLimitCount (cleanup_old_rate_limits [⟨"fp", -100000⟩, ⟨"fp", 3⟩] 5) "fp" 7 =
      rateLimitCount [⟨"fp", -100000⟩, ⟨"fp", 3⟩] "fp" 7 :=
  ⟨by decide,
   cleanup_preserves_rate_limit_count [⟨"fp", -100000⟩, ⟨"fp", 3⟩] "fp" 5 7 (by decide)⟩

/-- C4, counterexample. The claim says every authentication failure clears
the session cookie, but the missing-token branch (`app/auth.py` lines
36-39) raises its redirect with only a `Location` header and no
cookie-clearing `Set-Cookie`: with no cookie at all, the failure redirect
carries the `no_token` reason yet does not clear the cookie. -/
theorem get_current_user_no_token_does_not_clear_cookie :
    get_current_user none (fun _ => none) = .error ⟨"no_token", false⟩ ∧
    ¬ (AuthRedirect.clearsCookie ⟨"no_token", false⟩ = true) := by
  exact ⟨rfl, by decide⟩

/-- C4, amended. On every protected request each authentication failure —
token missing, token malformed, token expired, referenced user nonexistent
or inactive — redirects to the login page with a reason code that
distinguishes the failure (`no_token`, `invalid_token`, `token_expired`,
`user_inactive`); the expired-token, malformed-token and
nonexistent/inactive-user failures clear the session cookie, while the
missing-token failure (and a decodable token lacking a subject claim) do
not. -/
theorem get_current_user_failure_modes (lookup : String → Option UserRec) :
    get_current_user none lookup = .error ⟨"no_token", false⟩ ∧
    get_current_user (some .expired) lookup = .error ⟨"token_expired", true⟩ ∧
    get_current_user (some .malformed) lookup = .error ⟨"invalid_token", true⟩ ∧
    get_current_user (some (.ok none)) lookup = .error ⟨"invalid_token", false⟩ ∧
    (∀ sub, lookup sub = none →
      get_current_user (some (.ok (some sub))) lookup = .error ⟨"user_inactive", true⟩) ∧
    (∀ sub u, lookup sub = some u →
      get_current_user (some (.ok (some sub))) lookup = .ok u) := by
  refine ⟨rfl, rfl, rfl, rfl, ?_, ?_⟩
  · intro sub h
    simp [get_current_user, h]
  · intro sub u h
    simp [get_current_user, h]

theorem get_current_user_failure_modes_witness :
    ((fun (_ : String) => (none : Option UserRec)) "1" = none) ∧
    get_current_user (some (.ok (some "1"))) (fun _ => none) =
      .error ⟨"user_inactive", true⟩ :=
  ⟨rfl, (get_current_user_failure_modes (fun _ => none)).2.2.2.2.1 "1" rfl⟩

/-! ### Helper lemmas about `updateRow` and the worker -/

/-- `updateRow` with an id-preserving field update commutes with the
row lookup. -/
theorem find?_updateRow (rows : List Row) (fid : Int) (f : Row → Row)
    (hf : ∀ r, (f r).id = r.id) :
    (updateRow rows fid f).find? (fun r => r.id == fid) =
      (rows.find? (fun r => r.id == fid)).map
        (fun r => if r.id == fid then f r else r) := by
  induction rows with
  | nil => rfl
  | cons r rs ih =>
    by_cases h : r.id = fid
    · have h1 : updateRow (r :: rs) fid f = f r :: updateRow rs fid f := by
        simp [updateRow, h]
      rw [h1, List.find?_cons, List.find?_cons]
      have hb : ((f r).id == fid) = true := by simp [hf, h]
      have hb' : (r.id == fid) = true := by simp [h]
      simp [hb, hb', h]
    · have h1 : updateRow (r :: rs) fid f = r :: updateRow rs fid f := by
        simp [updateRow, h]
      rw [h1, List.find?_cons, List.find?_cons]
      have hb : (r.id == fid) = false := by simp [h]
      simp [hb, ih]

/-- A row of `updateRow rows fid f` that has id `fid` is the image under
`f` of a row of `rows` with id `fid` (for id-preserving `f`). -/
theorem mem_updateRow_of_id {rows : List Row} {fid : Int} {f : Row → Row}
    {r' : Row}
    (h : r' ∈ updateRow rows fid f) (hid : r'.id = fid) :
    ∃ r ∈ rows, r.id = fid ∧ r' = f r := by
  rcases List.mem_map.mp h with ⟨r, hr, heq⟩
  by_cases hc : r.id = fid
  · refine ⟨r, hr, hc, ?_⟩
    simp only [hc, beq_self_eq_true, if_true] at heq
    exact heq.symm
  · exfalso
    have hb : (r.id == fid) = false := by simp [hc]
    rw [hb] at heq
    simp only [Bool.false_eq_true, if_false] at heq
    exact hc (heq ▸ hid)

/-- If the applied field update pins `ai_status` to `s`, every id-matching
row of the updated table has `ai_status = s`. -/
theorem ai_status_of_mem_updateRow {rows : List Row} {fid : Int}
    {f : Row → Row} {s : String}
    (hs : ∀ r, (f r).ai_status = s) :
    ∀ r' ∈ updateRow rows fid f, r'.id = fid → r'.ai_status = s := by
  intro r' h hid
  rcases mem_updateRow_of_id h hid with ⟨r, _, _, hr'⟩
  rw [hr', hs]

/-- `updateRow` with a frame-preserving field update is in the frame
relation with the original table, row by row. -/
theorem rowFrame_updateRow {fid : Int} {f : Row → Row} (hf : PreservesFrame f) :
    ∀ rows : List Row, List.Forall₂ (RowFrame fid) rows (updateRow rows fid f) := by
  intro rows
  induction rows with
  | nil => exact List.Forall₂.nil
  | cons r rs ih =>
    have hcons : updateRow (r :: rs) fid f =
        (if r.id == fid then f r else r) :: updateRow rs fid f := rfl
    rw [hcons]
    refine List.Forall₂.cons ?_ ih
    by_cases h : r.id = fid
    · have hb : (r.id == fid) = true := by simp [h]
      rw [hb, if_pos rfl]
      rcases hf r with ⟨h1, h2, h3, h4, h5, h6⟩
      exact ⟨fun hc => absurd h hc, h1, h2, h3, h4, h5, h6⟩
    · have hb : (r.id == fid) = false := by simp [h]
      rw [hb]
      simp only [Bool.false_eq_true, if_false]
      exact ⟨fun _ => rfl, rfl, rfl, rfl, rfl, rfl, rfl⟩

/-- The frame relation composes. -/
theorem rowFrame_trans {fid : Int} {a b c : Row}
    (h1 : RowFrame fid a b) (h2 : RowFrame fid b c) : RowFrame fid a c := by
  obtain ⟨e1, i1, s1, m1, c1, p1, d1⟩ := h1
  obtain ⟨e2, i2, s2, m2, c2, p2, d2⟩ := h2
  refine ⟨?_, i2.trans i1, s2.trans s1, m2.trans m1, c2.trans c1,
    p2.trans p1, d2.trans d1⟩
  intro hne
  have hb := e1 hne
  have hbne : b.id ≠ fid := by rw [i1]; exact hne
  rw [e2 hbne, hb]

/-- The row-by-row frame relation composes along intermediate tables. -/
theorem forall₂_rowFrame_trans {fid : Int} : ∀ {l1 l2 l3 : List Row},
    List.Forall₂ (RowFrame fid) l1 l2 → List.Forall₂ (RowFrame fid) l2 l3 →
    List.Forall₂ (RowFrame fid) l1 l3 := by
  intro l1 l2 l3 h12
  induction h12 generalizing l3 with
  | nil =>
    intro h23
    cases h23
    exact List.Forall₂.nil
  | cons hab h ih =>
    intro h23
    cases h23 with
    | cons hbc h' => exact List.Forall₂.cons (rowFrame_trans hab hbc) (ih h')

/-- The id-conversion comprehension fails as soon as one element fails. -/
theorem pyIntList_eq_none {l : List JVal} (h : ∃ v ∈ l, pyInt v = none) :
    pyIntList l = none := by
  induction l with
  | nil => rcases h with ⟨a, ha, _⟩; cases ha
  | cons x xs ih =>
    rcases h with ⟨a, ha, hfa⟩
    rcases List.mem_cons.mp ha with h | h
    · subst h
      simp [pyIntList, hfa]
    · cases hx : pyInt x with
      | none => simp [pyIntList, hx]
      | some b => simp [pyIntList, hx, ih ⟨a, h, hfa⟩]

/-- C5, counterexample. The claim says a supplied identifier that is not a
well-formed integer makes the whole request fail with 400 and mutates no
row, but a JSON boolean identifier is silently coerced: `int(True)` is `1`
in Python (bool subclasses int), so `ids = [true]` is accepted and the row
with id 1 is mutated. -/
theorem bulk_status_bool_id_counterexample :
    bulk_status [sampleRow] [.jbool true] "read" 99 =
      (.ok 1, [{ sampleRow with status := "read", updated_at := 99 }]) := by
  decide

/-- C5, amended. The bulk status mutation validates the target status
against the fixed workflow enumeration, and when any supplied identifier
is `null` (or another value on which `int` raises `TypeError`) or a string
that does not parse as an integer, it rejects the entire request with a
400 error and leaves every row unchanged — strings of digits such as "1"
parse, "abc" does not; a JSON boolean identifier, however, is silently
coerced to 0 or 1 rather than rejected. -/
theorem bulk_status_rejects_malformed (rows : List Row) (ids : List JVal)
    (st : String) (now : Int) :
    (¬ st ∈ WORKFLOW_STATUSES → bulk_status rows ids st now = (.httpError 400, rows)) ∧
    ((∃ v ∈ ids, pyInt v = none) → bulk_status rows ids st now = (.httpError 400, rows)) ∧
    pyInt (.jstr "1") = some 1 ∧ pyInt (.jstr "abc") = none ∧ pyInt .jnull = none := by
  refine ⟨?_, ?_, by decide, by decide, rfl⟩
  · intro h
    simp [bulk_status, h]
  · intro h
    by_cases hst : st ∈ WORKFLOW_STATUSES
    · have hne : ids ≠ [] := by
        rintro rfl
        rcases h with ⟨a, ha, _⟩
        cases ha
      simp [bulk_status, hst, hne, pyIntList_eq_none h]
    · simp [bulk_status, hst]

/-- The tag loop collects, in table order, the tags of the matching
entries, stopping as soon as three are collected. -/
theorem deriveTags_go_eq (m : String) :
    ∀ (ents : List (String × List String)) (acc : List String),
      acc.length < 3 →
      deriveTags_go m ents acc =
        acc ++ ((ents.filter (entryMatches m)).map Prod.fst).take (3 - acc.length) := by
  intro ents
  induction ents with
  | nil =>
    intro acc _
    simp [deriveTags_go]
  | cons e rest ih =>
    intro acc hacc
    have hstep : deriveTags_go m (e :: rest) acc =
        (let acc' := if entryMatches m e then acc ++ [e.1] else acc;
         if 3 ≤ acc'.length then acc' else deriveTags_go m rest acc') := rfl
    cases hm : entryMatches m e with
    | true =>
      rw [hstep]
      simp only [hm, if_true]
      by_cases h3 : 3 ≤ (acc ++ [e.1]).length
      · have hlen : acc.length = 2 := by
          simp only [List.length_append, List.length_cons, List.length_nil] at h3
          omega
        rw [if_pos h3]
        simp [List.filter_cons, hm, hlen]
      · have hlt : (acc ++ [e.1]).length < 3 := by omega
        rw [if_neg h3, ih _ hlt]
        simp only [List.filter_cons, hm, if_true, List.map_cons]
        have harith : 3 - acc.length = (3 - (acc ++ [e.1]).length) + 1 := by
          simp only [List.length_append, List.length_cons, List.length_nil]
          omega
        rw [harith, List.take_succ_cons, List.append_assoc]
        simp
    | false =>
      rw [hstep]
      simp only [hm, Bool.false_eq_true, if_false]
      have hle : ¬ 3 ≤ acc.length := by omega
      rw [if_neg hle, ih _ hacc]
      simp [List.filter_cons, hm]

/-- The fallback tag derivation equals: the tags of the matching table
entries in table order, truncated to three, or the catch-all when nothing
matched. -/
theorem derive_tags_eq (m : String) :
    derive_tags m =
      if matchingTags m = [] then ["Other"] else (matchingTags m).take 3 := by
  unfold derive_tags matchingTags
  rw [deriveTags_go_eq (pyLower m) keywords_map [] (by decide)]
  simp only [List.nil_append, Nat.sub_zero]
  by_cases h : ((keywords_map.filter (entryMatches (pyLower m))).map Prod.fst) = []
  · simp [h]
  · have hne : (((keywords_map.filter (entryMatches (pyLower m))).map Prod.fst).take 3) ≠ [] := by
      rw [ne_eq, List.take_eq_nil_iff]
      simp [h]
    simp [h, hne]

/-- C7. For every message, the fallback tag derivation returns between one
and three distinct tags, each from the fixed allow-list; the result is
exactly the tags of the first matching table entries in fixed table order
(truncated to three), with the single catch-all tag `Other` exactly when
no keyword matches; and the message "The salary is too low" yields the tag
`Salary`. -/
theorem derive_tags_spec (m : String) :
    derive_tags m =
      (if matchingTags m = [] then ["Other"] else (matchingTags m).take 3) ∧
    1 ≤ (derive_tags m).length ∧ (derive_tags m).length ≤ 3 ∧
    (derive_tags m).Nodup ∧
    (∀ t ∈ derive_tags m, t ∈ ALLOWED_TAGS) ∧
    "Salary" ∈ derive_tags "The salary is too low" := by
  have heq := derive_tags_eq m
  have hnodup_keys : (keywords_map.map Prod.fst).Nodup := by decide
  have hall : ∀ t ∈ keywords_map.map Prod.fst, t ∈ ALLOWED_TAGS := by decide
  have hsub1 : List.Sublist (matchingTags m) (keywords_map.map Prod.fst) :=
    (List.filter_sublist _).map Prod.fst
  refine ⟨heq, ?_, ?_, ?_, ?_, ?_⟩
  · rw [heq]
    by_cases h : matchingTags m = []
    · simp [h]
    · rw [if_neg h]
      have hpos : 0 < (matchingTags m).length := List.length_pos.mpr h
      rw [List.length_take]
      omega
  · rw [heq]
    by_cases h : matchingTags m = []
    · simp [h]
    · rw [if_neg h, List.length_take]
      omega
  · rw [heq]
    by_cases h : matchingTags m = []
    · simp [h]
    · rw [if_neg h]
      exact ((hnodup_keys.sublist hsub1).sublist (List.take_sublist 3 _))
  · intro t ht
    rw [heq] at ht
    by_cases h : matchingTags m = []
    · rw [if_pos h] at ht
      simp only [List.mem_singleton] at ht
      rw [ht]
      decide
    · rw [if_neg h] at ht
      exact hall t (hsub1.subset (List.take_subset 3 _ ht))
  · decide

/-- C3. A worker invocation sets `ai_status = 'failed'` on its submission
iff the local heuristic fallback path was entered and itself raised; and a
remote-call error always enters the fallback path rather than producing
`failed` directly. -/
theorem process_failed_only_from_fallback (rows : List Row) (fid : Int)
    (apiKey : Bool) (remote : Except Unit RemoteOk) (fb : Bool) :
    (∀ r' ∈ (process rows fid apiKey remote fb).db, r'.id = fid →
      (r'.ai_status = "failed" ↔
        (process rows fid apiKey remote fb).fallbackInvoked = true ∧ fb = true)) ∧
    ((process rows fid apiKey remote fb).remoteInvoked = true →
      remote = .error () →
      (process rows fid apiKey remote fb).fallbackInvoked = true) := by
  simp only [process]
  cases hfind : (setAiStatus rows fid "processing").find? (fun r => r.id == fid) with
  | none =>
    simp only
    constructor
    · intro r' hr' hid
      have hnone := List.find?_eq_none.mp hfind r' hr'
      simp [hid] at hnone
    · intro h
      simp at h
  | some row =>
    simp only
    by_cases hws : pyStripIsEmpty row.message
    · simp only [hws, if_true]
      constructor
      · intro r' hr' hid
        have hdone : r'.ai_status = "done" :=
          @ai_status_of_mem_updateRow (setAiStatus rows fid "processing") fid
            emptyDoneApply "done" (fun _ => rfl) r' hr' hid
        rw [hdone]
        constructor
        · intro hc
          exact absurd hc (by decide)
        · rintro ⟨hc, _⟩
          simp at hc
      · intro h
        simp at h
    · simp only [hws, Bool.false_eq_true, if_false]
      cases apiKey with
      | false =>
        simp only [Bool.false_eq_true, if_false]
        cases hfb : fb with
        | true =>
          simp only [if_true]
          refine ⟨?_, by intro h; simp at h⟩
          intro r' hr' hid
          have hfail : r'.ai_status = "failed" :=
            @ai_status_of_mem_updateRow (setAiStatus rows fid "processing") fid
              (fun r => { r with ai_status := "failed" }) "failed"
              (fun _ => rfl) r' hr' hid
          simp [hfail]
        | false =>
          simp only [Bool.false_eq_true, if_false]
          refine ⟨?_, by intro h; simp at h⟩
          intro r' hr' hid
          have hdone : r'.ai_status = "done" :=
            @ai_status_of_mem_updateRow (setAiStatus rows fid "processing") fid
              (fallbackApply row.message) "done" (fun _ => rfl) r' hr' hid
          rw [hdone]
          constructor
          · intro hc
            exact absurd hc (by decide)
          · rintro ⟨_, hc⟩
            simp at hc
      | true =>
        simp only [if_true]
        cases remote with
        | ok res =>
          simp only
          constructor
          · intro r' hr' hid
            have hdone : r'.ai_status = "done" :=
              @ai_status_of_mem_updateRow (setAiStatus rows fid "processing") fid
                (openaiApply res) "done" (fun _ => rfl) r' hr' hid
            rw [hdone]
            constructor
            · intro hc
              exact absurd hc (by decide)
            · rintro ⟨hc, _⟩
              simp at hc
          · intro _ h
            simp at h
        | error e =>
          simp only [fallback_on_error]
          cases hfb : fb with
          | true =>
            simp only [if_true]
            refine ⟨?_, by intro _ _; trivial⟩
            intro r' hr' hid
            have hfail : r'.ai_status = "failed" :=
              @ai_status_of_mem_updateRow (setAiStatus rows fid "processing") fid
                (fun r => { r with ai_status := "failed" }) "failed"
                (fun _ => rfl) r' hr' hid
            simp [hfail]
          | false =>
            simp only [Bool.false_eq_true, if_false]
            refine ⟨?_, by intro _ _; trivial⟩
            intro r' hr' hid
            have hdone : r'.ai_status = "done" :=
              @ai_status_of_mem_updateRow (setAiStatus rows fid "processing") fid
                (fallbackApply row.message) "done" (fun _ => rfl) r' hr' hid
            rw [hdone]
            constructor
            · intro hc
              exact absurd hc (by decide)
            · rintro ⟨_, hc⟩
              simp at hc

theorem process_failed_only_from_fallback_witness :
    ({ sampleRow with ai_status := "failed" } ∈
      (process [sampleRow] 1 false (.error ()) true).db) ∧
    (Row.ai_status { sampleRow with ai_status := "failed" } = "failed" ↔
      (process [sampleRow] 1 false (.error ()) true).fallbackInvoked = true ∧
        true = true) := by
  refine ⟨by decide, ?_⟩
  exact (process_failed_only_from_fallback [sampleRow] 1 false (.error ()) true).1
    { sampleRow with ai_status := "failed" } (by decide) (by decide)

/-- C8. Every database write of a worker invocation for submission `fid`
targets only the rows with id `fid` (all other rows are returned exactly
as they were, in place), and even on the target row the worker never
modifies the workflow status, the message, the category, the private note
or the soft-delete flag. -/
theorem process_frame_property (rows : List Row) (fid : Int) (apiKey : Bool)
    (remote : Except Unit RemoteOk) (fb : Bool) :
    List.Forall₂ (RowFrame fid) rows (process rows fid apiKey remote fb).db := by
  have hproc : PreservesFrame (fun r : Row => { r with ai_status := "processing" }) :=
    fun _ => ⟨rfl, rfl, rfl, rfl, rfl, rfl⟩
  have hfail : PreservesFrame (fun r : Row => { r with ai_status := "failed" }) :=
    fun _ => ⟨rfl, rfl, rfl, rfl, rfl, rfl⟩
  have hempty : PreservesFrame emptyDoneApply :=
    fun _ => ⟨rfl, rfl, rfl, rfl, rfl, rfl⟩
  have h1 : List.Forall₂ (RowFrame fid) rows (setAiStatus rows fid "processing") :=
    rowFrame_updateRow hproc rows
  simp only [process]
  cases hfind : (setAiStatus rows fid "processing").find? (fun r => r.id == fid) with
  | none => simpa using h1
  | some row =>
    simp only
    by_cases hws : pyStripIsEmpty row.message
    · simp only [hws, if_true]
      exact forall₂_rowFrame_trans h1 (rowFrame_updateRow hempty _)
    · simp only [hws, Bool.false_eq_true, if_false]
      cases apiKey with
      | false =>
        simp only [Bool.false_eq_true, if_false]
        cases fb with
        | true =>
          simp only [if_true]
          exact forall₂_rowFrame_trans h1 (rowFrame_updateRow hfail _)
        | false =>
          simp only [Bool.false_eq_true, if_false]
          exact forall₂_rowFrame_trans h1
            (@rowFrame_updateRow fid (fallbackApply row.message)
              (fun _ => ⟨rfl, rfl, rfl, rfl, rfl, rfl⟩) _)
      | true =>
        simp only [if_true]
        cases remote with
        | ok res =>
          simp only
          exact forall₂_rowFrame_trans h1
            (@rowFrame_updateRow fid (openaiApply res)
              (fun _ => ⟨rfl, rfl, rfl, rfl, rfl, rfl⟩) _)
        | error e =>
          simp only [fallback_on_error]
          cases fb with
          | true =>
            simp only [if_true]
            exact forall₂_rowFrame_trans h1 (rowFrame_updateRow hfail _)
          | false =>
            simp only [Bool.false_eq_true, if_false]
            exact forall₂_rowFrame_trans h1
              (@rowFrame_updateRow fid (fallbackApply row.message)
                (fun _ => ⟨rfl, rfl, rfl, rfl, rfl, rfl⟩) _)

/-- C6. When the submission's message is empty or whitespace-only, the
worker short-circuits: neither the remote service nor the local heuristic
path is entered, and the row ends with enrichment status `done`, empty
summary, empty translations, empty tags and detected language
`unknown`. -/
theorem process_empty_message (rows : List Row) (fid : Int) (apiKey : Bool)
    (remote : Except Unit RemoteOk) (fb : Bool) (row : Row)
    (hfind : rows.find? (fun r => r.id == fid) = some row)
    (hmsg : pyStripIsEmpty row.message = true) :
    (process rows fid apiKey remote fb).remoteInvoked = false ∧
    (process rows fid apiKey remote fb).fallbackInvoked = false ∧
    ∀ r' ∈ (process rows fid apiKey remote fb).db, r'.id = fid →
      r'.ai_status = "done" ∧ r'.summary = "" ∧ r'.translation_en = "" ∧
      r'.translation_ru = "" ∧ r'.tags = "" ∧
      r'.detected_language = "unknown" := by
  have hrow : row.id = fid := by
    have h := List.find?_some hfind
    simpa using h
  have hfind1 : (setAiStatus rows fid "processing").find? (fun r => r.id == fid) =
      some { row with ai_status := "processing" } := by
    rw [setAiStatus,
      find?_updateRow rows fid (fun r => { r with ai_status := "processing" })
        (fun _ => rfl),
      hfind]
    simp [hrow]
  have hmsg1 : pyStripIsEmpty (Row.message { row with ai_status := "processing" }) = true :=
    hmsg
  simp only [process, hfind1, hmsg1, if_true]
  refine ⟨by trivial, by trivial, ?_⟩
  intro r' hr' hid
  rcases mem_updateRow_of_id hr' hid with ⟨r, _, _, hr'eq⟩
  rw [hr'eq]
  exact ⟨rfl, rfl, rfl, rfl, rfl, rfl⟩

theorem process_empty_message_witness :
    ([{ sampleRow with message := " " }].find? (fun r => r.id == 1) =
      some { sampleRow with message := " " }) ∧
    pyStripIsEmpty (Row.message { sampleRow with message := " " }) = true ∧
    (process [{ sampleRow with message := " " }] 1 true (.error ()) true).remoteInvoked
      = false := by
  refine ⟨by decide, by decide, ?_⟩
  exact (process_empty_message [{ sampleRow with message := " " }] 1 true (.error ())
    true { sampleRow with message := " " } (by decide) (by decide)).1

/-- C9. The public submission handler is atomic: on any synchronous
rejection (missing consent, invalid category, empty or over-length
message, invalid file) and on the rate-limited outcome, the store is
returned unchanged — no feedback row and no rate-limit event; on
acceptance, exactly one feedback row and exactly one rate-limit event are
appended together. -/
theorem submit_feedback_atomic (st : StoreState) (req : SubmitRequest)
    (now : Int) (sid : String) (fid : Int) (genFilename : String) :
    (∀ code, (submit_feedback st req now sid fid genFilename).1 = .httpError code →
      (submit_feedback st req now sid fid genFilename).2 = st) ∧
    ((submit_feedback st req now sid fid genFilename).1 = .rateLimited →
      (submit_feedback st req now sid fid genFilename).2 = st) ∧
    (∀ s, (submit_feedback st req now sid fid genFilename).1 = .thankYou s →
      ∃ row,
        (submit_feedback st req now sid fid genFilename).2.feedback =
          st.feedback ++ [row] ∧
        (submit_feedback st req now sid fid genFilename).2.rate_limits =
          st.rate_limits ++ [⟨req.ip_hash, now⟩]) := by
  unfold submit_feedback
  split_ifs with h1 h2 h3 h4 h5 <;>
    first
      | exact ⟨fun _ _ => rfl, fun _ => rfl, fun s h => by simp at h⟩
      | (cases hpc : photoCheck req.photo genFilename with
          | error code =>
            exact ⟨fun _ _ => rfl, fun _ => rfl, fun s h => by simp at h⟩
          | ok photo_path =>
            exact ⟨fun code h => by simp at h, fun h => by simp at h,
                   fun s _ => ⟨_, rfl, rfl⟩⟩)

theorem submit_feedback_atomic_witness :
    ((submit_feedback ⟨[], []⟩ ⟨"idea", "hello", "on", none, "fp", "ua"⟩ 0
        "WDN-000-00" 1 "f.jpg").1 = SubmitOutcome.thankYou "WDN-000-00") ∧
    ∃ row,
      (submit_feedback ⟨[], []⟩ ⟨"idea", "hello", "on", none, "fp", "ua"⟩ 0
        "WDN-000-00" 1 "f.jpg").2.feedback =
        StoreState.feedback ⟨[], []⟩ ++ [row] ∧
      (submit_feedback ⟨[], []⟩ ⟨"idea", "hello", "on", none, "fp", "ua"⟩ 0
        "WDN-000-00" 1 "f.jpg").2.rate_limits =
        StoreState.rate_limits ⟨[], []⟩ ++ [⟨"fp", 0⟩] :=
  ⟨by decide,
   (submit_feedback_atomic ⟨[], []⟩ ⟨"idea", "hello", "on", none, "fp", "ua"⟩ 0
     "WDN-000-00" 1 "f.jpg").2.2 "WDN-000-00" (by decide)⟩

/-- C10. Viewing the admin detail page of a non-deleted submission whose
workflow status is `new` rewrites that submission's status to `read` with
a fresh `updated_at` (leaving rows with other ids in place, via
`updateRow`), and renders the row as `read`; for a found row with any
other workflow status the view returns the table entirely unchanged. -/
theorem feedback_detail_marks_read (rows : List Row) (fid : Int) (now : Int)
    (row : Row)
    (hfind : rows.find? (fun r => r.id == fid && !r.is_deleted) = some row) :
    (row.status = "new" →
      feedback_detail rows fid now =
        (.page { row with status := "read" },
         updateRow rows fid (fun r => { r with status := "read", updated_at := now }))) ∧
    (row.status ≠ "new" →
      feedback_detail rows fid now = (.page row, rows)) := by
  constructor
  · intro hnew
    simp [feedback_detail, hfind, hnew]
  · intro hnot
    simp [feedback_detail, hfind, hnot]

theorem feedback_detail_marks_read_witness :
    ([sampleRow].find? (fun r => r.id == 1 && !r.is_deleted) = some sampleRow) ∧
    Row.status sampleRow = "new" ∧
    feedback_detail [sampleRow] 1 5 =
      (.page { sampleRow with status := "read" },
       updateRow [sampleRow] 1
         (fun r => { r with status := "read", updated_at := 5 })) :=
  ⟨by decide, by decide,
   (feedback_detail_marks_read [sampleRow] 1 5 sampleRow (by decide)).1 (by decide)⟩

theorem bulk_status_rejects_malformed_witness :
    (∃ v ∈ [JVal.jstr "1", JVal.jstr "abc"], pyInt v = none) ∧
    bulk_status [sampleRow] [.jstr "1", .jstr "abc"] "read" 0 =
      (.httpError 400, [sampleRow]) :=
  ⟨⟨.jstr "abc", by simp, by decide⟩,
   (bulk_status_rejects_malformed [sampleRow] [.jstr "1", .jstr "abc"] "read" 0).2.1
     ⟨.jstr "abc", by simp, by decide⟩⟩

end Budtender
